import Mathlib

/-!
Verification of the quiz attempt lifecycle and scoring engine of the
eii-backend repository, as a shallow embedding in Lean 4.

The embedded code comes from:
- `src/unnamed/part_008`: personal quiz routes, in particular
  `POST /:quizId/attempt` (start or resume an attempt) and
  `POST /attempt/:attemptId/submit` (submit and score an attempt);
- `src/unnamed/part_007`: community quiz routes, in particular
  `POST /:communityId/quiz/:quizId/attempt`,
  `POST /:communityId/quiz/:quizId/attempt/:attemptId/submit`, and
  `GET /:communityId/quiz/:quizId/leaderboard`;
- `src/models/QuizAttempt.js`, `src/models/CommunityQuizAttempt.js`,
  the `Quiz` schema in `src/unnamed/part_002`, and
  `src/models/CommunityQuiz.js`.

Modelling conventions:
- Mongo documents are Lean structures; a collection is a `List` of documents,
  mutated by explicit state passing.  A route handler becomes a pure function
  from the store (plus its request data) to a result and the new store.
- JavaScript numbers on the scoring paths are naturals; the floating point
  expression `Math.round(x / y * 100)` is modelled exactly on rationals as
  `(2 * (100 * x) + y) / (2 * y)` in natural division (`jsRound`).  When
  `y = 0`, JavaScript produces `NaN`; this is modelled as `Option.none`.
- Mongoose rejects `NaN` on a `Number` path at save time (cast/validation
  error on the `score` path, which carries `min: 0, max: 100`), so the
  submit model maps a `none` score to a `saveFailed` outcome: the request
  errors and the store is unchanged.
- Mongo `_id` generation is modelled by `nextId`, one plus the largest id in
  the store; the only property used is freshness.
-/

namespace EII

/-! ### Personal quiz data model (`Quiz` schema, `src/unnamed/part_002`) -/

/-- Question `type` enum of the `Quiz` schema:
`['multiple-choice', 'true-false', 'short-answer', 'essay']`. -/
inductive QuestionType where
  | multipleChoice
  | trueFalse
  | shortAnswer
  | essay
deriving DecidableEq, Repr

/-- An entry of a question's `options` array: `{ text, isCorrect }`. -/
structure QOption where
  text : String
  isCorrect : Bool
deriving DecidableEq, Repr

/-- A question of the `Quiz.questions` array.  `qid` stands for the Mongo
subdocument `_id` used by `quiz.questions.id(...)`. -/
structure Question where
  qid : Nat
  qtype : QuestionType
  sectionTitle : String
  options : List QOption
  correctAnswer : String
  points : Nat
deriving DecidableEq, Repr

/-- The slice of the `Quiz` document read by the attempt routes. -/
structure Quiz where
  questions : List Question
  passingScore : Nat
  maxAttempts : Nat
  allowRetakes : Bool
deriving DecidableEq, Repr

/-! ### Scoring a single answer
(`POST /attempt/:attemptId/submit`, `src/unnamed/part_008` lines 588-617) -/

/-- A submitted answer from the request body: `{ questionId, userAnswer,
timeSpent }`. -/
structure SubmittedAnswer where
  questionId : Nat
  userAnswer : String
  timeSpent : Nat
deriving DecidableEq, Repr

/-- The grading branch of the submit route:

```js
let isCorrect = false;
if (question.type === 'multiple-choice') {
  const correctOption = question.options.find(opt => opt.isCorrect);
  isCorrect = correctOption && correctOption.text === answer.userAnswer;
} else if (question.type === 'true-false') {
  isCorrect = question.correctAnswer.toLowerCase() === answer.userAnswer.toLowerCase();
}
```

Note there is no branch for `short-answer` or `essay`: for those types
`isCorrect` keeps its initial value `false`. -/
def gradeAnswer (q : Question) (userAnswer : String) : Bool :=
  match q.qtype with
  | .multipleChoice =>
      match q.options.find? (fun opt => opt.isCorrect) with
      | some correctOption => correctOption.text == userAnswer
      | none => false
  | .trueFalse => q.correctAnswer.toLower == userAnswer.toLower
  | .shortAnswer => false
  | .essay => false

/-- `if (isCorrect) { points = question.points; }` with `points` initially 0. -/
def pointsEarned (q : Question) (userAnswer : String) : Nat :=
  if gradeAnswer q userAnswer then q.points else 0

/-- One element of `processedAnswers`. -/
structure ProcessedAnswer where
  questionId : Nat
  sectionTitle : String
  userAnswer : String
  isCorrect : Bool
  points : Nat
  timeSpent : Nat
deriving DecidableEq, Repr

/-- `quiz.questions.id(answer.questionId)`: lookup of a question by
subdocument id. -/
def findQuestion (questions : List Question) (qid : Nat) : Option Question :=
  questions.find? (fun q => q.qid == qid)

/-- Body of `answers.map(answer => ...)`: grade one submitted answer, or
`none` for the thrown `Question not found` error. -/
def processOne (quiz : Quiz) (a : SubmittedAnswer) : Option ProcessedAnswer :=
  match findQuestion quiz.questions a.questionId with
  | none => none
  | some q =>
      some { questionId := a.questionId
             sectionTitle := q.sectionTitle
             userAnswer := a.userAnswer
             isCorrect := gradeAnswer q a.userAnswer
             points := pointsEarned q a.userAnswer
             timeSpent := a.timeSpent }

/-- `const processedAnswers = answers.map(...)`; the first missing question
id aborts the whole submission (the route throws). -/
def processAnswers (quiz : Quiz) (answers : List SubmittedAnswer) :
    Option (List ProcessedAnswer) :=
  answers.mapM (processOne quiz)

/-! ### Score arithmetic -/

/-- `Math.round(num / den)` for nonnegative `num` and positive `den`,
computed exactly: `round(num / den) = floor((2 * num + den) / (2 * den))`. -/
def jsRound (num den : Nat) : Nat :=
  (2 * num + den) / (2 * den)

/-- `Math.round((totalPoints / maxPoints) * 100)`.  When `maxPoints` is `0`
the JavaScript expression is `Math.round(NaN) = NaN` (the reachable case has
`totalPoints = 0`, and `0 / 0` is `NaN`); `NaN` is modelled as `none`. -/
def jsScore (totalPoints maxPoints : Nat) : Option Nat :=
  if maxPoints = 0 then none
  else some (jsRound (100 * totalPoints) maxPoints)

/-! ### Section scores (`src/unnamed/part_008` lines 637-657) -/

/-- One element of `attempt.sectionScores`. -/
structure SectionScore where
  sectionTitle : String
  score : Nat
  totalQuestions : Nat
  correctAnswers : Nat
deriving DecidableEq, Repr

/-- The `sectionScores` accumulation: answers are grouped under their
`sectionTitle` (JavaScript object keys keep first-insertion order, matching
`eraseDups`, which keeps first occurrences), and each section gets
`Math.round((correct / total) * 100)`; `total ≥ 1` for every section that
appears. -/
def sectionScoresOf (pas : List ProcessedAnswer) : List SectionScore :=
  ((pas.map (fun a => a.sectionTitle)).eraseDups).map (fun s =>
    let xs := pas.filter (fun a => a.sectionTitle == s)
    let correct := (xs.filter (fun a => a.isCorrect)).length
    { sectionTitle := s
      score := jsRound (100 * correct) xs.length
      totalQuestions := xs.length
      correctAnswers := correct })

/-! ### Personal attempt store (`QuizAttempt` collection) -/

/-- `status` enum of `QuizAttempt`:
`['in-progress', 'completed', 'abandoned', 'timed-out']`. -/
inductive AttemptStatus where
  | inProgress
  | completed
  | abandoned
  | timedOut
deriving DecidableEq, Repr

/-- The slice of a `QuizAttempt` document used by the attempt routes. -/
structure Attempt where
  aid : Nat
  quizId : Nat
  userId : Nat
  attemptNumber : Nat
  maxPoints : Nat
  status : AttemptStatus
  answers : List ProcessedAnswer
  score : Nat
  passed : Bool
  sectionScores : List SectionScore
  aiSummary : Option String
deriving DecidableEq, Repr

/-- The `QuizAttempt` collection. -/
abbrev Store := List Attempt

/-- `{ quizId, userId, status: 'in-progress' }`, the filter of both the
resume check and the in-progress uniqueness key. -/
def isInProgressFor (quizId userId : Nat) (a : Attempt) : Bool :=
  a.quizId == quizId && a.userId == userId
    && decide (a.status = AttemptStatus.inProgress)

/-- `{ quizId, userId }`: all attempts of this user for this quiz. -/
def attemptsFor (st : Store) (userId quizId : Nat) : List Attempt :=
  st.filter (fun a => a.quizId == quizId && a.userId == userId)

/-- `QuizAttempt.countDocuments({ quizId, userId, status: 'completed' })`. -/
def completedCount (st : Store) (userId quizId : Nat) : Nat :=
  (st.filter (fun a => a.quizId == quizId && a.userId == userId
    && decide (a.status = AttemptStatus.completed))).length

/-- Number of in-progress attempts for a `(user, quiz)` pair. -/
def inProgressCount (st : Store) (userId quizId : Nat) : Nat :=
  (st.filter (isInProgressFor quizId userId)).length

/-- Mongo `_id` generation, modelled as one plus the largest id in the
store; the only property the proofs use is that the result is fresh. -/
def nextId (st : Store) : Nat :=
  (st.map (fun a => a.aid)).foldr max 0 + 1

/-- Outcome of `POST /:quizId/attempt` (`src/unnamed/part_008`
lines 437-549), with the quiz already fetched. -/
inductive StartResult where
  | resumed (attemptId attemptNumber : Nat)
  | maxAttemptsReached
  | started (attemptId attemptNumber : Nat)
deriving DecidableEq, Repr

/-- The `attemptData` object built by the start route: a fresh id, attempt
number `(count of all attempts for this user and quiz) + 1`, `maxPoints`
from the quiz virtual `totalPoints`, status in-progress. -/
def attemptData (st : Store) (userId quizId : Nat) (quiz : Quiz) :
    Attempt :=
  { aid := nextId st
    quizId := quizId
    userId := userId
    attemptNumber := (attemptsFor st userId quizId).length + 1
    maxPoints := (quiz.questions.map (fun q => q.points)).sum
    status := .inProgress
    answers := []
    score := 0
    passed := false
    sectionScores := []
    aiSummary := none }

/-- `POST /:quizId/attempt`: resume an existing in-progress attempt
unchanged; otherwise enforce `settings.maxAttempts` against the count of
completed attempts; otherwise insert a new in-progress attempt numbered
`(count of all attempts for this user and quiz) + 1`.  The
`findOneAndUpdate` upsert inserts because the resume check just found no
in-progress attempt (sequential store semantics). -/
def startAttempt (st : Store) (userId quizId : Nat) (quiz : Quiz) :
    StartResult × Store :=
  match st.find? (isInProgressFor quizId userId) with
  | some existing => (.resumed existing.aid existing.attemptNumber, st)
  | none =>
      if completedCount st userId quizId ≥ quiz.maxAttempts then
        (.maxAttemptsReached, st)
      else
        let att := attemptData st userId quizId quiz
        (.started att.aid att.attemptNumber, st ++ [att])

/-- `attempt.save()` after mutating a fetched document: Mongo writes back
the document with the same `_id`. -/
def saveAttempt (st : Store) (att : Attempt) : Store :=
  st.map (fun a => if a.aid == att.aid then att else a)

/-- Response of `POST /attempt/:attemptId/submit`
(`src/unnamed/part_008` lines 750-763). -/
structure SubmitResponse where
  passed : Bool
  score : Nat
  correctAnswers : Nat
  totalQuestions : Nat
  sectionScores : List SectionScore
  aiSummary : Option String
  canRetake : Bool
deriving DecidableEq, Repr

/-- Outcome of `POST /attempt/:attemptId/submit`.  `saveFailed` is the
mongoose cast/validation error raised when the route assigns the `NaN`
score (see `jsScore`). -/
inductive SubmitResult where
  | attemptNotFound
  | questionNotFound
  | saveFailed
  | ok (resp : SubmitResponse)
deriving DecidableEq, Repr

/-- `{ _id: attemptId, userId, status: 'in-progress' }`, the submit
route's attempt lookup filter. -/
def ownInProgress (userId attemptId : Nat) (a : Attempt) : Bool :=
  a.aid == attemptId && a.userId == userId
    && decide (a.status = AttemptStatus.inProgress)

/-- `POST /attempt/:attemptId/submit` (`src/unnamed/part_008` lines
557-763), with the quiz passed in (its lookup by `attempt.quizId` is not
claim-relevant) and the Text Generation Service call abstracted as
`aiResult` (`none` models `geminiService.generateQuizSummary` throwing; the
route catches the error and continues). -/
def submitAttempt (st : Store) (userId attemptId : Nat) (quiz : Quiz)
    (answers : List SubmittedAnswer) (aiResult : Option String) :
    SubmitResult × Store :=
  match st.find? (ownInProgress userId attemptId) with
  | none => (.attemptNotFound, st)
  | some att =>
      match processAnswers quiz answers with
      | none => (.questionNotFound, st)
      | some pas =>
          let totalPoints := (pas.map (fun a => a.points)).sum
          let maxPoints := (quiz.questions.map (fun q => q.points)).sum
          match jsScore totalPoints maxPoints with
          | none => (.saveFailed, st)
          | some score =>
              let passed := decide (score ≥ quiz.passingScore)
              let secs := sectionScoresOf pas
              let scored : Attempt :=
                { att with
                  status := AttemptStatus.completed
                  answers := pas
                  score := score
                  passed := passed
                  sectionScores := secs }
              let st1 := saveAttempt st scored
              let (final, st2) :=
                match aiResult with
                | some s =>
                    let withAI := { scored with aiSummary := some s }
                    (withAI, saveAttempt st1 withAI)
                | none => (scored, st1)
              (.ok { passed := passed
                     score := score
                     correctAnswers := (final.answers.filter
                       (fun a => a.isCorrect)).length
                     totalQuestions := final.answers.length
                     sectionScores := secs
                     aiSummary := aiResult
                     canRetake := quiz.allowRetakes
                       && decide (att.attemptNumber < quiz.maxAttempts) },
               st2)

/-- `quizAttemptSchema.methods.abandon` applied to the attempt fetched by
id: set `status = 'abandoned'` and save. -/
def abandonAttempt (st : Store) (attemptId : Nat) : Store :=
  st.map (fun a => if a.aid == attemptId
    then { a with status := AttemptStatus.abandoned } else a)

/-- An operation of the personal attempt lifecycle. -/
inductive Op where
  | start (userId quizId : Nat) (quiz : Quiz)
  | submit (userId attemptId : Nat) (quiz : Quiz)
      (answers : List SubmittedAnswer) (aiResult : Option String)
  | abandon (attemptId : Nat)

/-- The store after an operation. -/
def applyOp (st : Store) : Op → Store
  | .start u q quiz => (startAttempt st u q quiz).2
  | .submit u aid quiz answers ai => (submitAttempt st u aid quiz answers ai).2
  | .abandon aid => abandonAttempt st aid

/-! ### Community quiz variant (`src/unnamed/part_007`,
`src/models/CommunityQuizAttempt.js`, `src/models/CommunityQuiz.js`) -/

/-- `status` enum of `CommunityQuizAttempt`:
`['in-progress', 'completed', 'submitted', 'abandoned']`. -/
inductive CStatus where
  | inProgress
  | completed
  | submitted
  | abandoned
deriving DecidableEq, Repr

/-- The slice of a `CommunityQuizAttempt` document used by the routes. -/
structure CAttempt where
  aid : Nat
  userId : Nat
  quizId : Nat
  attemptNumber : Nat
  status : CStatus
  score : Nat
  totalTimeTaken : Nat
  createdAt : Nat
deriving DecidableEq, Repr

/-- The `CommunityQuizAttempt` collection. -/
abbrev CStore := List CAttempt

/-- `CommunityQuizAttempt.countDocuments({ userId, communityQuizId })`:
all attempts, regardless of status. -/
def cTotalCount (st : CStore) (userId quizId : Nat) : Nat :=
  (st.filter (fun a => a.userId == userId && a.quizId == quizId)).length

/-- Completed community attempts of this user for this quiz. -/
def cCompletedCount (st : CStore) (userId quizId : Nat) : Nat :=
  (st.filter (fun a => a.userId == userId && a.quizId == quizId
    && decide (a.status = CStatus.completed))).length

/-- In-progress community attempts of this user for this quiz. -/
def cInProgressCount (st : CStore) (userId quizId : Nat) : Nat :=
  (st.filter (fun a => a.userId == userId && a.quizId == quizId
    && decide (a.status = CStatus.inProgress))).length

/-- Fresh id for the community store. -/
def cNextId (st : CStore) : Nat :=
  (st.map (fun a => a.aid)).foldr max 0 + 1

/-- Outcome of `POST /:communityId/quiz/:quizId/attempt`. -/
inductive CStartResult where
  | maxAttemptsReached
  | started (attemptId attemptNumber : Nat)
deriving DecidableEq, Repr

/-- `POST /:communityId/quiz/:quizId/attempt` (`src/unnamed/part_007`
lines 699-773): count ALL of the user's attempts for the quiz (any
status); refuse if that count has reached `quiz.maxAttempts`; otherwise
unconditionally create a fresh attempt (the schema default status is
`'in-progress'`).  There is no resume check. -/
def communityStartAttempt (st : CStore) (userId quizId maxAttempts : Nat) :
    CStartResult × CStore :=
  let existing := cTotalCount st userId quizId
  if existing ≥ maxAttempts then
    (.maxAttemptsReached, st)
  else
    let att : CAttempt :=
      { aid := cNextId st
        userId := userId
        quizId := quizId
        attemptNumber := existing + 1
        status := .inProgress
        score := 0
        totalTimeTaken := 0
        createdAt := 0 }
    (.started att.aid att.attemptNumber, st ++ [att])

/-! ### Community quiz submission scoring
(`POST /:communityId/quiz/:quizId/attempt/:attemptId/submit`,
`src/unnamed/part_007` lines 776-878) -/

/-- A question of `CommunityQuiz.questions`: options are plain strings and
`correctAnswer` is an option index (`Number`, 0-3). -/
structure CQQuestion where
  text : String
  options : List String
  correctAnswer : Nat
  points : Nat
deriving DecidableEq, Repr

/-- A submitted community answer; `selectedAnswer` is a `Number` or `null`
(`none`). -/
structure CQAnswer where
  questionId : String
  selectedAnswer : Option Nat
  timeSpent : Nat
deriving DecidableEq, Repr

/-- One element of the `scoredAnswers` array built by the submit route. -/
structure CScoredAnswer where
  questionIndex : Nat
  selectedAnswer : Option Nat
  isCorrect : Bool
  timeSpent : Nat
deriving DecidableEq, Repr

/-- `const question = quiz.questions[index];
const isCorrect = question && question.correctAnswer === answer.selectedAnswer;`
Strict equality: `null === n` is false for every number `n`, and an index
beyond the questions array gives `undefined`, hence false. -/
def cGradeAt (questions : List CQQuestion) (index : Nat)
    (selectedAnswer : Option Nat) : Bool :=
  match questions[index]? with
  | some q => selectedAnswer == some q.correctAnswer
  | none => false

/-- `const scoredAnswers = answers.map((answer, index) => ...)`: each
submitted answer is graded against the question at the same array position;
the submitted `questionId` is never read. -/
def cScoredAnswers (questions : List CQQuestion) (answers : List CQAnswer) :
    List CScoredAnswer :=
  answers.enum.map (fun p =>
    { questionIndex := p.1
      selectedAnswer := p.2.selectedAnswer
      isCorrect := cGradeAt questions p.1 p.2.selectedAnswer
      timeSpent := p.2.timeSpent })

/-- The `correctAnswers` counter incremented once per correct answer. -/
def cCorrectCount (questions : List CQQuestion) (answers : List CQAnswer) :
    Nat :=
  ((cScoredAnswers questions answers).filter (fun a => a.isCorrect)).length

/-- `const score = correctAnswers;` — the community score is the count of
correct answers, not a points-weighted value. -/
def communityScore (questions : List CQQuestion) (answers : List CQAnswer) :
    Nat :=
  cCorrectCount questions answers

/-- `Math.round((correctAnswers / quiz.questions.length) * 100)`; `NaN`
(`none`) when the quiz has no questions. -/
def communityPercentage (questions : List CQQuestion)
    (answers : List CQAnswer) : Option Nat :=
  if questions.length = 0 then none
  else some (jsRound (100 * cCorrectCount questions answers) questions.length)

/-- `percentage >= (quiz.passingScore || 70)`: `0` is falsy in JavaScript,
so a stored passing score of `0` falls back to `70`; `NaN >= t` is false. -/
def communityPassed (questions : List CQQuestion) (answers : List CQAnswer)
    (passingScore : Nat) : Bool :=
  match communityPercentage questions answers with
  | some p => decide (p ≥ (if passingScore = 0 then 70 else passingScore))
  | none => false

/-! ### Community quiz leaderboard
(`GET /:communityId/quiz/:quizId/leaderboard`,
`src/unnamed/part_007` lines 529-610) -/

/-- One `$group` result, after the `$project` stage. -/
structure LBEntry where
  userId : Nat
  score : Nat
  timeTaken : Nat
  attempts : Nat
  lastAttempt : Nat
deriving DecidableEq, Repr

/-- `$max` over the values of a nonempty group. -/
def natsMax : List Nat → Nat
  | [] => 0
  | x :: xs => xs.foldl max x

/-- `$min` over the values of a nonempty group. -/
def natsMin : List Nat → Nat
  | [] => 0
  | x :: xs => xs.foldl min x

/-- The documents of one `$group` bucket. -/
def cAttemptsOf (st : CStore) (userId : Nat) : List CAttempt :=
  st.filter (fun a => a.userId == userId)

/-- The `$group` stage keyed on `$userId`:
`bestScore: { $max: '$score' }, bestTime: { $min: '$totalTimeTaken' },
totalAttempts: { $sum: 1 }, lastAttempt: { $max: '$createdAt' }`,
after `$project` renames `bestScore` to `score` and `bestTime` to
`timeTaken`.  One bucket per distinct `userId` of the matched attempts
(`$group` emits buckets in unspecified order; `dedup` models the set of
distinct keys). -/
def groupByUser (st : CStore) : List LBEntry :=
  ((st.map (fun a => a.userId)).dedup).map (fun u =>
    let as := cAttemptsOf st u
    { userId := u
      score := natsMax (as.map (fun a => a.score))
      timeTaken := natsMin (as.map (fun a => a.totalTimeTaken))
      attempts := as.length
      lastAttempt := natsMax (as.map (fun a => a.createdAt)) })

/-- The `$sort: { score: -1, timeTaken: 1 }` order: higher score first,
smaller best time first among equal scores. -/
def lbOrder (a b : LBEntry) : Prop :=
  b.score < a.score ∨ (a.score = b.score ∧ a.timeTaken ≤ b.timeTaken)

instance : DecidableRel lbOrder := fun _ _ =>
  inferInstanceAs (Decidable (_ ∨ _))

instance : IsTotal LBEntry lbOrder where
  total a b := by
    rcases Nat.lt_trichotomy a.score b.score with h | h | h
    · exact Or.inr (Or.inl h)
    · rcases Nat.le_total a.timeTaken b.timeTaken with ht | ht
      · exact Or.inl (Or.inr ⟨h, ht⟩)
      · exact Or.inr (Or.inr ⟨h.symm, ht⟩)
    · exact Or.inl (Or.inl h)

instance : IsTrans LBEntry lbOrder where
  trans a b c hab hbc := by
    rcases hab with h₁ | ⟨h₁, t₁⟩
    · rcases hbc with h₂ | ⟨h₂, t₂⟩
      · exact Or.inl (h₂.trans h₁)
      · exact Or.inl (h₂ ▸ h₁)
    · rcases hbc with h₂ | ⟨h₂, t₂⟩
      · exact Or.inl (h₁ ▸ h₂)
      · exact Or.inr ⟨h₁.trans h₂, t₁.trans t₂⟩

/-- A leaderboard entry after
`leaderboard.map((entry, index) => ({ ...entry, rank: index + 1 }))`. -/
structure RankedEntry where
  userId : Nat
  score : Nat
  timeTaken : Nat
  attempts : Nat
  lastAttempt : Nat
  rank : Nat
deriving DecidableEq, Repr

/-- Spread an entry and add its 1-based rank. -/
def withRank (e : LBEntry) (r : Nat) : RankedEntry :=
  { userId := e.userId
    score := e.score
    timeTaken := e.timeTaken
    attempts := e.attempts
    lastAttempt := e.lastAttempt
    rank := r }

/-- `rank: index + 1` over the sorted, limited list. -/
def assignRanks : Nat → List LBEntry → List RankedEntry
  | _, [] => []
  | i, e :: es => withRank e i :: assignRanks (i + 1) es

/-- The whole aggregation pipeline: group by user, sort by score
descending then best time ascending, `$limit: 50`, then attach ranks. -/
def computeLeaderboard (st : CStore) : List RankedEntry :=
  assignRanks 1 ((List.insertionSort lbOrder (groupByUser st)).take 50)

/-! ### Spec-side grading (for the refinement comparison of claim C1) -/

/-- The grading rule in the words of the specification, amended only where
the code forced it: multiple-choice is correct iff some option flagged
`isCorrect` has exactly the submitted text; true-false is a case-insensitive
exact match against `correctAnswer`; short-answer (and essay) submissions
are always graded incorrect, because the submit route has no grading branch
for them. -/
def specGradeAmended (q : Question) (ua : String) : Bool :=
  match q.qtype with
  | .multipleChoice => q.options.any (fun o => o.isCorrect && o.text == ua)
  | .trueFalse => q.correctAnswer.toLower == ua.toLower
  | .shortAnswer => false
  | .essay => false

/-- With at most one option flagged correct, matching the first flagged
option (what `options.find(opt => opt.isCorrect)` grades against) is the
same as matching any flagged option. -/
theorem find_first_correct_eq_any (opts : List QOption) (ua : String)
    (h : (opts.filter (fun o => o.isCorrect)).length ≤ 1) :
    (match opts.find? (fun o => o.isCorrect) with
     | some o => o.text == ua
     | none => false) = opts.any (fun o => o.isCorrect && o.text == ua) := by
  induction opts with
  | nil => rfl
  | cons o os ih =>
      by_cases hc : o.isCorrect
      · have hrest : (os.filter (fun o => o.isCorrect)).length = 0 := by
          simp only [List.filter_cons, hc, if_pos, List.length_cons] at h
          omega
        have hnone : ∀ x ∈ os, ¬(x.isCorrect = true) := by
          rw [List.length_eq_zero, List.filter_eq_nil_iff] at hrest
          intro x hx
          simpa using hrest x hx
        have hany : os.any (fun o => o.isCorrect && o.text == ua) = false := by
          rw [List.any_eq_false]
          intro x hx
          simp [hnone x hx]
        simp [List.find?_cons, hc, hany]
      · have hh : (os.filter (fun o => o.isCorrect)).length ≤ 1 := by
          simpa [List.filter_cons, hc] using h
        have := ih hh
        simp only [List.find?_cons, List.any_cons, hc]
        simpa using this

/-! ### Demo data used by closed witnesses and counterexamples -/

/-- A short-answer question with a known correct answer. -/
def shortAnswerDemoQ : Question :=
  { qid := 7
    qtype := .shortAnswer
    sectionTitle := "s1"
    options := []
    correctAnswer := "paris"
    points := 2 }

/-- A one-question multiple-choice demo quiz. -/
def demoMCQ : Question :=
  { qid := 1
    qtype := .multipleChoice
    sectionTitle := "s1"
    options := [{ text := "a", isCorrect := false },
                { text := "b", isCorrect := true }]
    correctAnswer := "b"
    points := 1 }

/-- A published demo quiz with one question. -/
def demoQuiz : Quiz :=
  { questions := [demoMCQ]
    passingScore := 70
    maxAttempts := 3
    allowRetakes := true }

/-- A quiz with no questions (`maxPoints = 0`). -/
def zeroQuiz : Quiz :=
  { questions := []
    passingScore := 70
    maxAttempts := 3
    allowRetakes := true }

/-- An in-progress attempt at `zeroQuiz`. -/
def zeroQuizAttempt : Attempt :=
  { aid := 1
    quizId := 1
    userId := 1
    attemptNumber := 1
    maxPoints := 0
    status := .inProgress
    answers := []
    score := 0
    passed := false
    sectionScores := []
    aiSummary := none }

/-- An in-progress attempt at `demoQuiz`. -/
def demoAttempt : Attempt :=
  { aid := 1
    quizId := 1
    userId := 1
    attemptNumber := 1
    maxPoints := 1
    status := .inProgress
    answers := []
    score := 0
    passed := false
    sectionScores := []
    aiSummary := none }

/-! ### Claim C1 -/

/-- C1, counterexample: the claim says a short-answer answer is correct iff
it matches `correctAnswer` case-insensitively.  Here the submitted text is
literally equal to `correctAnswer` (so it certainly matches
case-insensitively), yet the code grades it incorrect with 0 points,
because the submit route has no grading branch for `short-answer`. -/
theorem C1_short_answer_counterexample :
    (shortAnswerDemoQ.qtype = QuestionType.shortAnswer) ∧
    (shortAnswerDemoQ.correctAnswer == "paris") = true ∧
    (shortAnswerDemoQ.correctAnswer.toLower == "paris".toLower) = true ∧
    gradeAnswer shortAnswerDemoQ "paris" = false ∧
    pointsEarned shortAnswerDemoQ "paris" = 0 ∧
    shortAnswerDemoQ.points = 2 := by
  refine ⟨rfl, by decide, by simp [shortAnswerDemoQ], rfl, rfl, rfl⟩

/-- C1 (amended): when at most one option is flagged `isCorrect` (the quiz
generator flags exactly the options equal to the model answer, and the quiz
schema requires at least one flagged option for multiple-choice), the
submit route grades a multiple-choice answer correct iff the submitted text
equals the text of an option flagged `isCorrect`, grades a true-false
answer by case-insensitive exact comparison with `correctAnswer`, grades
short-answer and essay answers incorrect unconditionally, and awards
`pointsEarned = question.points` if correct, else 0. -/
theorem C1_grading_amended (q : Question) (ua : String)
    (h : (q.options.filter (fun o => o.isCorrect)).length ≤ 1) :
    gradeAnswer q ua = specGradeAmended q ua ∧
    pointsEarned q ua =
      (if specGradeAmended q ua = true then q.points else 0) := by
  have hg : gradeAnswer q ua = specGradeAmended q ua := by
    cases hq : q.qtype with
    | multipleChoice =>
        unfold gradeAnswer specGradeAmended
        rw [hq]
        exact find_first_correct_eq_any q.options ua h
    | trueFalse => unfold gradeAnswer specGradeAmended; rw [hq]
    | shortAnswer => unfold gradeAnswer specGradeAmended; rw [hq]
    | essay => unfold gradeAnswer specGradeAmended; rw [hq]
  refine ⟨hg, ?_⟩
  unfold pointsEarned
  rw [hg]

/-- C1 witness: the amended grading theorem applied to the demo
multiple-choice question and a correct submission. -/
theorem C1_grading_amended_witness :
    gradeAnswer demoMCQ "b" = specGradeAmended demoMCQ "b" ∧
    pointsEarned demoMCQ "b" =
      (if specGradeAmended demoMCQ "b" = true then demoMCQ.points else 0) :=
  C1_grading_amended demoMCQ "b" (by decide)

/-! ### Claim C2 -/

/-- C2: scoring a submission with `maxPoints = 0` is NOT the defined score
0 the specification promises.  The route computes
`Math.round((0 / 0) * 100) = NaN` (modelled `none`), and saving the `NaN`
score fails mongoose validation (`score` has `min: 0, max: 100`), so the
whole submission errors and the store is unchanged — diverging from the
spec, whose intent is also visible in `quizAttemptSchema.pre('save')`,
which guards its own recompute with `if (this.maxPoints > 0)`. -/
theorem C2_zero_maxPoints_is_nan :
    jsScore 0 0 = none ∧
    jsScore 0 0 ≠ some 0 ∧
    submitAttempt [zeroQuizAttempt] 1 1 zeroQuiz [] none =
      (SubmitResult.saveFailed, [zeroQuizAttempt]) ∧
    (∀ t m : Nat, m ≠ 0 → jsScore t m = some (jsRound (100 * t) m)) :=
  ⟨rfl, by simp [jsScore], rfl, fun t m hm => by simp [jsScore, hm]⟩

/-! ### Lifecycle invariants: helper lemmas -/

/-- Mapping a store with a function that fixes every element it leaves
matching `p` cannot increase the number of matching documents. -/
theorem filter_map_length_le (f : Attempt → Attempt) (p : Attempt → Bool)
    (h : ∀ a, p (f a) = true → f a = a) (st : List Attempt) :
    ((st.map f).filter p).length ≤ (st.filter p).length := by
  induction st with
  | nil => simp
  | cons a as ih =>
      rw [List.map_cons, List.filter_cons, List.filter_cons]
      by_cases hfa : p (f a) = true
      · have hfaa : f a = a := h a hfa
        rw [hfaa] at hfa ⊢
        simp only [hfa, if_true, List.length_cons]
        omega
      · have hfa' : p (f a) = false := Bool.eq_false_iff.mpr hfa
        simp only [hfa', Bool.false_eq_true, if_false]
        cases hpa : p a with
        | true => simp only [if_true, List.length_cons]; omega
        | false => simp only [Bool.false_eq_true, if_false]; exact ih

/-- Every id in the store is below `nextId`. -/
theorem aid_lt_nextId (st : Store) (a : Attempt) (ha : a ∈ st) :
    a.aid < nextId st := by
  unfold nextId
  have : a.aid ≤ (st.map (fun a => a.aid)).foldr max 0 := by
    induction st with
    | nil => cases ha
    | cons b bs ih =>
        rw [List.map_cons, List.foldr_cons]
        rcases List.mem_cons.mp ha with h | h
        · subst h; exact Nat.le_max_left _ _
        · exact Nat.le_trans (ih h) (Nat.le_max_right _ _)
  omega

/-- A filter over a mapped store, when the function does not change the
outcome of the predicate on any element of the store. -/
theorem filter_map_comm (f : Attempt → Attempt) (p : Attempt → Bool)
    (st : List Attempt) (h : ∀ a ∈ st, p (f a) = p a) :
    (st.map f).filter p = (st.filter p).map f := by
  induction st with
  | nil => rfl
  | cons a as ih =>
      rw [List.map_cons, List.filter_cons, List.filter_cons,
        h a (List.mem_cons_self a as)]
      cases hpa : p a with
      | true =>
          simp only [if_true, List.map_cons]
          rw [ih (fun x hx => h x (List.mem_cons_of_mem a hx))]
      | false =>
          simp only [Bool.false_eq_true, if_false]
          exact ih (fun x hx => h x (List.mem_cons_of_mem a hx))

/-- Mapping a list where the function agrees with another map pointwise. -/
theorem map_congr_mem (f g : Attempt → Nat) (st : List Attempt)
    (h : ∀ a ∈ st, f a = g a) : st.map f = st.map g := by
  induction st with
  | nil => rfl
  | cons a as ih =>
      rw [List.map_cons, List.map_cons, h a (List.mem_cons_self a as),
        ih (fun x hx => h x (List.mem_cons_of_mem a hx))]

/-- Ids are pairwise distinct. -/
def UniqueIds (st : Store) : Prop :=
  List.Pairwise (fun a b => a.aid ≠ b.aid) st

/-- Under `UniqueIds`, a document is determined by its id. -/
theorem eq_of_aid_eq (st : Store) (hu : UniqueIds st) {a b : Attempt}
    (ha : a ∈ st) (hb : b ∈ st) (heq : a.aid = b.aid) : a = b := by
  induction st with
  | nil => cases ha
  | cons x xs ih =>
      have hx := List.pairwise_cons.mp hu
      rcases List.mem_cons.mp ha with h₁ | h₁ <;>
        rcases List.mem_cons.mp hb with h₂ | h₂
      · rw [h₁, h₂]
      · exact absurd heq (h₁ ▸ hx.1 b h₂)
      · exact absurd heq.symm (h₂ ▸ hx.1 a h₁)
      · exact ih hx.2 h₁ h₂

/-- At most one in-progress attempt per (user, quiz) pair. -/
def AtMostOneInProgress (st : Store) : Prop :=
  ∀ u q : Nat, inProgressCount st u q ≤ 1

/-- `attemptNumber`s of each (user, quiz) pair form the gap-free,
duplicate-free sequence `1, 2, ..., n`. -/
def Numbered (st : Store) : Prop :=
  ∀ u q : Nat, (attemptsFor st u q).map (fun a => a.attemptNumber) =
    List.range' 1 (attemptsFor st u q).length

/-- `find? = none` turned into emptiness of the matching filter. -/
theorem filter_eq_nil_of_find?_none (p : Attempt → Bool) (st : List Attempt)
    (h : st.find? p = none) : st.filter p = [] := by
  rw [List.filter_eq_nil_iff]
  intro a ha
  exact List.find?_eq_none.mp h a ha

/-- A saved document that is not in-progress cannot increase any
in-progress count. -/
theorem inProgressCount_saveAttempt_le (st : Store) (v : Attempt)
    (hv : v.status ≠ AttemptStatus.inProgress) (u q : Nat) :
    inProgressCount (saveAttempt st v) u q ≤ inProgressCount st u q := by
  unfold inProgressCount saveAttempt
  apply filter_map_length_le
  intro a hpa
  by_cases h : (a.aid == v.aid) = true
  · exfalso
    rw [if_pos h] at hpa
    unfold isInProgressFor at hpa
    simp only [Bool.and_eq_true, decide_eq_true_eq] at hpa
    exact hv hpa.2
  · rw [if_neg h]

/-- Abandoning cannot increase any in-progress count. -/
theorem inProgressCount_abandon_le (st : Store) (aid u q : Nat) :
    inProgressCount (abandonAttempt st aid) u q ≤ inProgressCount st u q := by
  unfold inProgressCount abandonAttempt
  apply filter_map_length_le
  intro a hpa
  by_cases h : (a.aid == aid) = true
  · exfalso
    rw [if_pos h] at hpa
    unfold isInProgressFor at hpa
    simp only [Bool.and_eq_true, decide_eq_true_eq] at hpa
    exact absurd hpa.2 (by simp)
  · rw [if_neg h]

/-- Appending one document adds its own contribution to an in-progress
count. -/
theorem inProgressCount_append_single (st : Store) (att : Attempt)
    (u q : Nat) :
    inProgressCount (st ++ [att]) u q =
      inProgressCount st u q +
        (if isInProgressFor q u att = true then 1 else 0) := by
  unfold inProgressCount
  rw [List.filter_append, List.length_append]
  congr 1
  rw [List.filter_cons]
  cases h : isInProgressFor q u att with
  | true => simp
  | false => simp

/-- Two documents sharing the key fields that identify an attempt row. -/
def SameKey (v a : Attempt) : Prop :=
  v.aid = a.aid ∧ v.userId = a.userId ∧ v.quizId = a.quizId ∧
    v.attemptNumber = a.attemptNumber

/-- What `startAttempt` does to the store: leaves it unchanged, or (when no
in-progress attempt exists and the limit is not reached) appends one fresh
in-progress attempt numbered `count + 1`. -/
theorem startAttempt_store_spec (st : Store) (u q : Nat) (quiz : Quiz) :
    (startAttempt st u q quiz).2 = st ∨
    (st.find? (isInProgressFor q u) = none ∧
      ∃ att : Attempt, att.userId = u ∧ att.quizId = q ∧
        att.status = AttemptStatus.inProgress ∧
        att.aid = nextId st ∧
        att.attemptNumber = (attemptsFor st u q).length + 1 ∧
        (startAttempt st u q quiz).2 = st ++ [att]) := by
  cases hf : st.find? (isInProgressFor q u) with
  | some a =>
      exact Or.inl (by unfold startAttempt; rw [hf])
  | none =>
      by_cases hlim : completedCount st u q ≥ quiz.maxAttempts
      · refine Or.inl ?_
        unfold startAttempt
        rw [hf]
        dsimp only
        rw [if_pos hlim]
      · refine Or.inr ⟨rfl, ?_⟩
        refine ⟨attemptData st u q quiz, rfl, rfl, rfl, rfl, rfl, ?_⟩
        unfold startAttempt
        rw [hf]
        dsimp only
        rw [if_neg hlim]

/-- Saving twice is saving once. -/
theorem saveAttempt_idem (st : Store) (v : Attempt) :
    saveAttempt (saveAttempt st v) v = saveAttempt st v := by
  unfold saveAttempt
  rw [List.map_map]
  apply List.map_congr_left
  intro a _
  by_cases h : (a.aid == v.aid) = true
  · simp only [Function.comp_apply, if_pos h, beq_self_eq_true, if_true]
  · simp only [Function.comp_apply, if_neg h]

/-- What `submitAttempt` does to the store: leaves it unchanged, or saves
(twice) a completed document carrying the key of the in-progress attempt it
found. -/
theorem submitAttempt_store_spec (st : Store) (userId attemptId : Nat)
    (quiz : Quiz) (answers : List SubmittedAnswer) (ai : Option String) :
    (submitAttempt st userId attemptId quiz answers ai).2 = st ∨
    ∃ att v w, st.find? (ownInProgress userId attemptId) = some att ∧
      SameKey v att ∧ SameKey w att ∧
      v.status = AttemptStatus.completed ∧
      w.status = AttemptStatus.completed ∧
      (submitAttempt st userId attemptId quiz answers ai).2 =
        saveAttempt (saveAttempt st v) w := by
  cases hf : st.find? (ownInProgress userId attemptId) with
  | none => exact Or.inl (by unfold submitAttempt; rw [hf])
  | some att =>
      cases hp : processAnswers quiz answers with
      | none =>
          refine Or.inl ?_
          unfold submitAttempt
          rw [hf]
          dsimp only
          rw [hp]
      | some pas =>
          cases hs : jsScore ((pas.map (fun a => a.points)).sum)
              ((quiz.questions.map (fun qq => qq.points)).sum) with
          | none =>
              refine Or.inl ?_
              unfold submitAttempt
              rw [hf]
              dsimp only
              rw [hp]
              dsimp only
              rw [hs]
          | some score =>
              cases ai with
              | none =>
                  refine Or.inr ⟨att,
                    { att with
                      status := AttemptStatus.completed
                      answers := pas
                      score := score
                      passed := decide (score ≥ quiz.passingScore)
                      sectionScores := sectionScoresOf pas },
                    { att with
                      status := AttemptStatus.completed
                      answers := pas
                      score := score
                      passed := decide (score ≥ quiz.passingScore)
                      sectionScores := sectionScoresOf pas },
                    rfl, ⟨rfl, rfl, rfl, rfl⟩, ⟨rfl, rfl, rfl, rfl⟩,
                    rfl, rfl, ?_⟩
                  unfold submitAttempt
                  rw [hf]
                  dsimp only
                  rw [hp]
                  dsimp only
                  rw [hs]
                  dsimp only
                  rw [saveAttempt_idem]
              | some str =>
                  refine Or.inr ⟨att,
                    { att with
                      status := AttemptStatus.completed
                      answers := pas
                      score := score
                      passed := decide (score ≥ quiz.passingScore)
                      sectionScores := sectionScoresOf pas },
                    { att with
                      status := AttemptStatus.completed
                      answers := pas
                      score := score
                      passed := decide (score ≥ quiz.passingScore)
                      sectionScores := sectionScoresOf pas
                      aiSummary := some str },
                    rfl, ⟨rfl, rfl, rfl, rfl⟩, ⟨rfl, rfl, rfl, rfl⟩,
                    rfl, rfl, ?_⟩
                  unfold submitAttempt
                  rw [hf]
                  dsimp only
                  rw [hp]
                  dsimp only
                  rw [hs]

/-! ### Claim C3 -/

/-- C3, counterexample for the community variant: the community start
route has no resume check, so two consecutive starts by the same user on
the same quiz (here with `maxAttempts = 2`) leave TWO in-progress attempts
for the (user, quiz) pair, violating the claimed invariant. -/
theorem C3_community_counterexample :
    cInProgressCount
      (communityStartAttempt
        (communityStartAttempt [] 1 1 2).2 1 1 2).2 1 1 = 2 ∧
    ¬(cInProgressCount
      (communityStartAttempt
        (communityStartAttempt [] 1 1 2).2 1 1 2).2 1 1 ≤ 1) := by
  decide

/-- C3 (amended): for PERSONAL quiz attempts, every operation of the
attempt lifecycle (start-or-resume, submit, abandon) preserves the
invariant that each (user, quiz) pair has at most one in-progress attempt.
The community variant does not carry this invariant: its start route
creates a new attempt whenever the total attempt count is below
`maxAttempts`, regardless of the status of existing attempts (see the
counterexample). -/
theorem C3_at_most_one_in_progress_amended (st : Store) (op : Op)
    (h : AtMostOneInProgress st) : AtMostOneInProgress (applyOp st op) := by
  cases op with
  | start u q quiz =>
      rcases startAttempt_store_spec st u q quiz with
        heq | ⟨hf, att, hau, haq, hast, _, _, heq⟩
      · unfold applyOp
        dsimp only
        rw [heq]
        exact h
      · unfold applyOp
        dsimp only
        rw [heq]
        intro u' q'
        rw [inProgressCount_append_single]
        have hzero : st.filter (isInProgressFor q u) = [] :=
          filter_eq_nil_of_find?_none _ _ hf
        by_cases huq : u' = u ∧ q' = q
        · obtain ⟨hu', hq'⟩ := huq
          have h0 : inProgressCount st u' q' = 0 := by
            unfold inProgressCount
            rw [hu', hq', hzero]
            rfl
          have hb : (if isInProgressFor q' u' att = true then 1 else 0) ≤ 1 := by
            split
            · omega
            · omega
          omega
        · have hcond : isInProgressFor q' u' att = false := by
            apply Bool.eq_false_iff.mpr
            intro hc
            unfold isInProgressFor at hc
            simp only [Bool.and_eq_true, beq_iff_eq, decide_eq_true_eq] at hc
            refine huq ⟨?_, ?_⟩
            · rw [← hc.1.2]; exact hau
            · rw [← hc.1.1]; exact haq
          rw [hcond]
          have := h u' q'
          simp only [Bool.false_eq_true, if_false]
          omega
  | submit u aid quiz answers ai =>
      rcases submitAttempt_store_spec st u aid quiz answers ai with
        heq | ⟨att, v, w, _, hkv, hkw, hv, hw, heq⟩
      · unfold applyOp
        dsimp only
        rw [heq]
        exact h
      · unfold applyOp
        dsimp only
        rw [heq]
        intro u' q'
        refine Nat.le_trans (Nat.le_trans
          (inProgressCount_saveAttempt_le _ w ?_ u' q')
          (inProgressCount_saveAttempt_le st v ?_ u' q')) (h u' q')
        · simp [hw]
        · simp [hv]
  | abandon aid =>
      intro u' q'
      exact Nat.le_trans (inProgressCount_abandon_le st aid u' q') (h u' q')

/-- C3 witness: the amended invariant theorem applied to the empty store
and a concrete start operation. -/
theorem C3_at_most_one_in_progress_amended_witness :
    AtMostOneInProgress (applyOp [] (Op.start 1 1 demoQuiz)) :=
  C3_at_most_one_in_progress_amended [] (Op.start 1 1 demoQuiz)
    (fun _ _ => Nat.zero_le 1)

/-! ### Claim C4: attempt numbering -/

/-- Mapping with an id-preserving function keeps ids pairwise distinct. -/
theorem uniqueIds_map (st : Store) (f : Attempt → Attempt)
    (h : ∀ a ∈ st, (f a).aid = a.aid) (hu : UniqueIds st) :
    UniqueIds (st.map f) := by
  unfold UniqueIds
  rw [List.pairwise_map]
  exact hu.imp_of_mem (fun ha hb hab => by rw [h _ ha, h _ hb]; exact hab)

/-- Mapping with a function that preserves user, quiz and attempt number
leaves every (user, quiz) attempt-number list unchanged. -/
theorem attemptNumbers_map (st : Store) (f : Attempt → Attempt)
    (h : ∀ a ∈ st, (f a).userId = a.userId ∧ (f a).quizId = a.quizId ∧
      (f a).attemptNumber = a.attemptNumber) (u q : Nat) :
    (attemptsFor (st.map f) u q).map (fun a => a.attemptNumber) =
      (attemptsFor st u q).map (fun a => a.attemptNumber) := by
  unfold attemptsFor
  rw [filter_map_comm _ _ _ (fun a ha => by
    show ((f a).quizId == q && (f a).userId == u) = _
    rw [(h a ha).2.1, (h a ha).1])]
  rw [List.map_map]
  exact map_congr_mem _ _ _
    (fun a ha => (h a (List.mem_of_mem_filter ha)).2.2)

/-- Same hypotheses: the size of every (user, quiz) bucket is unchanged. -/
theorem attemptsFor_map_length (st : Store) (f : Attempt → Attempt)
    (h : ∀ a ∈ st, (f a).userId = a.userId ∧ (f a).quizId = a.quizId)
    (u q : Nat) :
    (attemptsFor (st.map f) u q).length = (attemptsFor st u q).length := by
  unfold attemptsFor
  rw [filter_map_comm _ _ _ (fun a ha => by
    show ((f a).quizId == q && (f a).userId == u) = _
    rw [(h a ha).2, (h a ha).1])]
  rw [List.length_map]

/-- A store whose attempt-number lists and bucket sizes agree with a
well-numbered store is well numbered. -/
theorem numbered_of_preserved (st stp : Store)
    (hmap : ∀ u q, (attemptsFor stp u q).map (fun a => a.attemptNumber) =
        (attemptsFor st u q).map (fun a => a.attemptNumber))
    (hlen : ∀ u q, (attemptsFor stp u q).length =
        (attemptsFor st u q).length)
    (hn : Numbered st) : Numbered stp := by
  intro u q
  rw [hmap u q, hlen u q]
  exact hn u q

/-- Appending a document with a fresh id keeps ids pairwise distinct. -/
theorem uniqueIds_append (st : Store) (att : Attempt)
    (hfresh : ∀ a ∈ st, a.aid ≠ att.aid) (hu : UniqueIds st) :
    UniqueIds (st ++ [att]) := by
  unfold UniqueIds
  rw [List.pairwise_append]
  refine ⟨hu, List.pairwise_singleton _ _, ?_⟩
  intro a ha b hb
  rw [List.mem_singleton] at hb
  subst hb
  exact hfresh a ha

/-- A (user, quiz) bucket after appending one document. -/
theorem attemptsFor_append_single (st : Store) (att : Attempt) (u q : Nat) :
    attemptsFor (st ++ [att]) u q =
      attemptsFor st u q ++
        (if (att.quizId == q && att.userId == u) = true then [att] else []) := by
  unfold attemptsFor
  rw [List.filter_append]
  congr 1
  rw [List.filter_cons]
  cases hc : (att.quizId == q && att.userId == u) with
  | true => simp
  | false => simp

/-- Appending an attempt numbered one past its (user, quiz) bucket size
preserves the numbering invariant. -/
theorem numbered_append (st : Store) (att : Attempt)
    (hnum : att.attemptNumber =
      (attemptsFor st att.userId att.quizId).length + 1)
    (hn : Numbered st) : Numbered (st ++ [att]) := by
  intro u' q'
  rw [attemptsFor_append_single]
  cases hc : (att.quizId == q' && att.userId == u') with
  | false =>
      simp only [Bool.false_eq_true, if_false, List.append_nil]
      exact hn u' q'
  | true =>
      rw [if_pos rfl]
      have hcc := hc
      rw [Bool.and_eq_true, beq_iff_eq, beq_iff_eq] at hcc
      obtain ⟨hq', hu'⟩ := hcc
      subst hq'
      subst hu'
      rw [List.map_append, List.length_append]
      simp only [List.map_cons, List.map_nil, List.length_cons,
        List.length_nil]
      rw [hn att.userId att.quizId, hnum, List.range'_concat]
      congr 2
      omega

/-- Saving a document that carries the key of a document already in the
store (ids unique) changes no id, no bucket, and no attempt number, and
puts the saved document in the store. -/
theorem saveAttempt_preserves (st : Store) (v att : Attempt)
    (hu : UniqueIds st) (hmem : att ∈ st) (hk : SameKey v att) :
    UniqueIds (saveAttempt st v) ∧
    (∀ u q, (attemptsFor (saveAttempt st v) u q).map
        (fun a => a.attemptNumber) =
      (attemptsFor st u q).map (fun a => a.attemptNumber)) ∧
    (∀ u q, (attemptsFor (saveAttempt st v) u q).length =
      (attemptsFor st u q).length) ∧
    v ∈ saveAttempt st v := by
  have hfields : ∀ a ∈ st,
      (if a.aid == v.aid then v else a).aid = a.aid ∧
      (if a.aid == v.aid then v else a).userId = a.userId ∧
      (if a.aid == v.aid then v else a).quizId = a.quizId ∧
      (if a.aid == v.aid then v else a).attemptNumber = a.attemptNumber := by
    intro a ha
    by_cases hc : (a.aid == v.aid) = true
    · have haid : a.aid = att.aid := by
        rw [beq_iff_eq] at hc
        rw [hc, hk.1]
      have haa : a = att := eq_of_aid_eq st hu ha hmem haid
      subst haa
      rw [if_pos hc]
      exact ⟨hk.1, hk.2.1, hk.2.2.1, hk.2.2.2⟩
    · rw [if_neg hc]
      exact ⟨rfl, rfl, rfl, rfl⟩
  refine ⟨?_, ?_, ?_, ?_⟩
  · exact uniqueIds_map st _ (fun a ha => (hfields a ha).1) hu
  · intro u q
    exact attemptNumbers_map st _ (fun a ha =>
      ⟨(hfields a ha).2.1, (hfields a ha).2.2.1, (hfields a ha).2.2.2⟩) u q
  · intro u q
    exact attemptsFor_map_length st _ (fun a ha =>
      ⟨(hfields a ha).2.1, (hfields a ha).2.2.1⟩) u q
  · unfold saveAttempt
    refine List.mem_map.mpr ⟨att, hmem, ?_⟩
    rw [if_pos (beq_iff_eq.mpr hk.1.symm)]

/-- A submitted correct answer for the demo quiz. -/
def demoSubmission : List SubmittedAnswer :=
  [{ questionId := 1, userAnswer := "b", timeSpent := 5 }]

/-- The spec trace: start, abandon, start, abandon, start, submit. -/
def demoTraceStore : Store :=
  applyOp (applyOp (applyOp (applyOp (applyOp (applyOp []
    (Op.start 1 1 demoQuiz))
    (Op.abandon 1))
    (Op.start 1 1 demoQuiz))
    (Op.abandon 2))
    (Op.start 1 1 demoQuiz))
    (Op.submit 1 3 demoQuiz demoSubmission none)

/-- C4: the attempt numbers of each (user, quiz) pair always form the
gap-free, duplicate-free sequence 1..n (`Numbered`), and every lifecycle
operation preserves this, together with id uniqueness; a newly created
attempt is numbered (count of ALL attempts for that user and quiz) + 1;
and the spec trace start, abandon, start, abandon, start, submit yields
attempt numbers [1, 2, 3]. -/
theorem C4_attempt_numbering (st : Store) (op : Op)
    (hu : UniqueIds st) (hn : Numbered st) :
    (UniqueIds (applyOp st op) ∧ Numbered (applyOp st op)) ∧
    (∀ u q quiz aid n,
      (startAttempt st u q quiz).1 = StartResult.started aid n →
        n = (attemptsFor st u q).length + 1) ∧
    (attemptsFor demoTraceStore 1 1).map (fun a => a.attemptNumber) =
      [1, 2, 3] := by
  refine ⟨?_, ?_, by decide⟩
  · cases op with
    | start u q quiz =>
        rcases startAttempt_store_spec st u q quiz with
          heq | ⟨hf, att, hau, haq, hast, haid, hnum, heq⟩
        · unfold applyOp
          dsimp only
          rw [heq]
          exact ⟨hu, hn⟩
        · unfold applyOp
          dsimp only
          rw [heq]
          constructor
          · refine uniqueIds_append st att ?_ hu
            intro a ha
            rw [haid]
            exact Nat.ne_of_lt (aid_lt_nextId st a ha)
          · refine numbered_append st att ?_ hn
            rw [hau, haq]
            exact hnum
    | submit u aid quiz answers ai =>
        rcases submitAttempt_store_spec st u aid quiz answers ai with
          heq | ⟨att, v, w, hf, hkv, hkw, hv, hw, heq⟩
        · unfold applyOp
          dsimp only
          rw [heq]
          exact ⟨hu, hn⟩
        · unfold applyOp
          dsimp only
          rw [heq]
          have hmem : att ∈ st := List.mem_of_find?_eq_some hf
          obtain ⟨hu1, hmap1, hlen1, hvmem⟩ :=
            saveAttempt_preserves st v att hu hmem hkv
          have hkwv : SameKey w v :=
            ⟨hkw.1.trans hkv.1.symm, hkw.2.1.trans hkv.2.1.symm,
             hkw.2.2.1.trans hkv.2.2.1.symm,
             hkw.2.2.2.trans hkv.2.2.2.symm⟩
          obtain ⟨hu2, hmap2, hlen2, _⟩ :=
            saveAttempt_preserves (saveAttempt st v) w v hu1 hvmem hkwv
          refine ⟨hu2, numbered_of_preserved st _ ?_ ?_ hn⟩
          · intro u' q'
            rw [hmap2 u' q', hmap1 u' q']
          · intro u' q'
            rw [hlen2 u' q', hlen1 u' q']
    | abandon aid =>
        unfold applyOp
        dsimp only
        have hfields : ∀ a ∈ st,
            ((fun a => if a.aid == aid
              then { a with status := AttemptStatus.abandoned }
              else a) a).aid = a.aid ∧
            ((fun a => if a.aid == aid
              then { a with status := AttemptStatus.abandoned }
              else a) a).userId = a.userId ∧
            ((fun a => if a.aid == aid
              then { a with status := AttemptStatus.abandoned }
              else a) a).quizId = a.quizId ∧
            ((fun a => if a.aid == aid
              then { a with status := AttemptStatus.abandoned }
              else a) a).attemptNumber = a.attemptNumber := by
          intro a ha
          by_cases hc : (a.aid == aid) = true
          · dsimp only
            rw [if_pos hc]
            exact ⟨rfl, rfl, rfl, rfl⟩
          · dsimp only
            rw [if_neg hc]
            exact ⟨rfl, rfl, rfl, rfl⟩
        unfold abandonAttempt
        refine ⟨uniqueIds_map st _ (fun a ha => (hfields a ha).1) hu,
          numbered_of_preserved st _ ?_ ?_ hn⟩
        · intro u' q'
          exact attemptNumbers_map st _ (fun a ha =>
            ⟨(hfields a ha).2.1, (hfields a ha).2.2.1,
             (hfields a ha).2.2.2⟩) u' q'
        · intro u' q'
          exact attemptsFor_map_length st _ (fun a ha =>
            ⟨(hfields a ha).2.1, (hfields a ha).2.2.1⟩) u' q'
  · intro u q quiz aid n hres
    unfold startAttempt at hres
    cases hf : st.find? (isInProgressFor q u) with
    | some a =>
        rw [hf] at hres
        simp at hres
    | none =>
        rw [hf] at hres
        dsimp only at hres
        by_cases hlim : completedCount st u q ≥ quiz.maxAttempts
        · rw [if_pos hlim] at hres
          simp at hres
        · rw [if_neg hlim] at hres
          injection hres with h1 h2
          exact h2.symm

/-- C4 witness: the numbering theorem applied to the empty store and a
concrete start operation. -/
theorem C4_attempt_numbering_witness :
    (UniqueIds (applyOp [] (Op.start 1 1 demoQuiz)) ∧
      Numbered (applyOp [] (Op.start 1 1 demoQuiz))) ∧
    (∀ u q quiz aid n,
      (startAttempt [] u q quiz).1 = StartResult.started aid n →
        n = (attemptsFor [] u q).length + 1) ∧
    (attemptsFor demoTraceStore 1 1).map (fun a => a.attemptNumber) =
      [1, 2, 3] :=
  C4_attempt_numbering [] (Op.start 1 1 demoQuiz) List.Pairwise.nil
    (fun _ _ => rfl)

/-! ### Claim C5: attempt limits -/

/-- A community attempt in a non-completed (abandoned) state. -/
def abandonedCAttempt : CAttempt :=
  { aid := 1
    userId := 1
    quizId := 1
    attemptNumber := 1
    status := .abandoned
    score := 0
    totalTimeTaken := 0
    createdAt := 0 }

/-- C5, counterexample for the community variant: with `maxAttempts = 1`
and a single ABANDONED (not completed) attempt on record, the community
start route fails with its attempt-limit error even though the user has
zero completed attempts — the community route counts all attempts, not
only completed ones. -/
theorem C5_community_counterexample :
    (communityStartAttempt [abandonedCAttempt] 1 1 1).1 =
      CStartResult.maxAttemptsReached ∧
    cCompletedCount [abandonedCAttempt] 1 1 = 0 ∧
    ¬(cCompletedCount [abandonedCAttempt] 1 1 ≥ 1) := by
  decide

/-- C5 (amended): the PERSONAL start route (when no in-progress attempt
exists) fails with the attempt-limit error exactly when the count of
COMPLETED attempts has reached `settings.maxAttempts`, so abandoned
attempts do not count there; the COMMUNITY start route instead fails
exactly when the count of ALL attempts (any status) has reached
`maxAttempts`. -/
theorem C5_attempt_limit_amended (st : Store) (cst : CStore)
    (u q m : Nat) (quiz : Quiz) :
    ((startAttempt st u q quiz).1 = StartResult.maxAttemptsReached ↔
      inProgressCount st u q = 0 ∧
        completedCount st u q ≥ quiz.maxAttempts) ∧
    ((communityStartAttempt cst u q m).1 = CStartResult.maxAttemptsReached ↔
      cTotalCount cst u q ≥ m) := by
  constructor
  · cases hf : st.find? (isInProgressFor q u) with
    | some a =>
        have hmem := List.mem_of_find?_eq_some hf
        have hsat := List.find?_some hf
        constructor
        · intro hres
          exfalso
          unfold startAttempt at hres
          rw [hf] at hres
          simp at hres
        · rintro ⟨h0, _⟩
          exfalso
          have hin : a ∈ st.filter (isInProgressFor q u) :=
            List.mem_filter.mpr ⟨hmem, hsat⟩
          unfold inProgressCount at h0
          rw [List.length_eq_zero] at h0
          rw [h0] at hin
          cases hin
    | none =>
        by_cases hlim : completedCount st u q ≥ quiz.maxAttempts
        · constructor
          · intro _
            refine ⟨?_, hlim⟩
            unfold inProgressCount
            rw [filter_eq_nil_of_find?_none _ _ hf]
            rfl
          · intro _
            unfold startAttempt
            rw [hf]
            dsimp only
            rw [if_pos hlim]
        · constructor
          · intro hres
            unfold startAttempt at hres
            rw [hf] at hres
            dsimp only at hres
            rw [if_neg hlim] at hres
            simp at hres
          · rintro ⟨_, hge⟩
            exact absurd hge hlim
  · unfold communityStartAttempt
    dsimp only
    by_cases hlim : cTotalCount cst u q ≥ m
    · rw [if_pos hlim]
      exact ⟨fun _ => hlim, fun _ => rfl⟩
    · rw [if_neg hlim]
      constructor
      · intro hres
        simp at hres
      · intro hge
        exact absurd hge hlim

/-! ### Claim C6: idempotent resume -/

/-- C6: starting when no in-progress attempt exists and the completed
count is below the limit creates one attempt; calling start again at once
returns the SAME attempt id and number as a resume, leaves the store
untouched, and exactly one document was added — one in-progress attempt
for the pair. -/
theorem C6_idempotent_resume (st : Store) (u q : Nat) (quiz : Quiz)
    (h0 : inProgressCount st u q = 0)
    (hlim : completedCount st u q < quiz.maxAttempts) :
    ∃ aid n,
      (startAttempt st u q quiz).1 = StartResult.started aid n ∧
      (startAttempt (startAttempt st u q quiz).2 u q quiz).1 =
        StartResult.resumed aid n ∧
      (startAttempt (startAttempt st u q quiz).2 u q quiz).2 =
        (startAttempt st u q quiz).2 ∧
      inProgressCount (startAttempt st u q quiz).2 u q = 1 ∧
      (startAttempt st u q quiz).2.length = st.length + 1 := by
  have hf : st.find? (isInProgressFor q u) = none := by
    rw [List.find?_eq_none]
    intro a ha hpa
    have hin : a ∈ st.filter (isInProgressFor q u) :=
      List.mem_filter.mpr ⟨ha, hpa⟩
    unfold inProgressCount at h0
    rw [List.length_eq_zero] at h0
    rw [h0] at hin
    cases hin
  have hnlim : ¬ completedCount st u q ≥ quiz.maxAttempts :=
    Nat.not_le.mpr hlim
  have hst2 : (startAttempt st u q quiz).2 =
      st ++ [attemptData st u q quiz] := by
    unfold startAttempt
    rw [hf]
    dsimp only
    rw [if_neg hnlim]
  have hmatch : isInProgressFor q u (attemptData st u q quiz) = true := by
    unfold isInProgressFor attemptData
    simp
  have hfind : (st ++ [attemptData st u q quiz]).find?
      (isInProgressFor q u) = some (attemptData st u q quiz) := by
    rw [List.find?_append, hf]
    rw [List.find?_cons_of_pos _ hmatch]
    rfl
  refine ⟨nextId st, (attemptsFor st u q).length + 1, ?_, ?_, ?_, ?_, ?_⟩
  · unfold startAttempt
    rw [hf]
    dsimp only
    rw [if_neg hnlim]
    rfl
  · rw [hst2]
    unfold startAttempt
    rw [hfind]
    rfl
  · rw [hst2]
    unfold startAttempt
    rw [hfind]
  · rw [hst2, inProgressCount_append_single, h0, hmatch]
    rfl
  · rw [hst2, List.length_append]
    rfl

/-- C6 witness: the idempotent-resume theorem applied to the empty store
and the demo quiz. -/
theorem C6_idempotent_resume_witness :
    ∃ aid n,
      (startAttempt [] 1 1 demoQuiz).1 = StartResult.started aid n ∧
      (startAttempt (startAttempt [] 1 1 demoQuiz).2 1 1 demoQuiz).1 =
        StartResult.resumed aid n ∧
      (startAttempt (startAttempt [] 1 1 demoQuiz).2 1 1 demoQuiz).2 =
        (startAttempt [] 1 1 demoQuiz).2 ∧
      inProgressCount (startAttempt [] 1 1 demoQuiz).2 1 1 = 1 ∧
      (startAttempt [] 1 1 demoQuiz).2.length = ([] : Store).length + 1 :=
  C6_idempotent_resume [] 1 1 demoQuiz rfl (by decide)

/-! ### Claim C7: submission non-replay -/

/-- C7: submitting to an attempt id that is not an in-progress attempt of
the caller — because it is already completed (or abandoned / timed out),
belongs to another user, or does not exist — fails with
ATTEMPT_NOT_FOUND, and the whole store, including any stored scored
result, is returned unchanged. -/
theorem C7_submit_not_in_progress (st : Store) (u aid : Nat)
    (quiz : Quiz) (answers : List SubmittedAnswer) (ai : Option String)
    (h : ∀ a ∈ st, a.aid = aid →
      a.userId ≠ u ∨ a.status ≠ AttemptStatus.inProgress) :
    submitAttempt st u aid quiz answers ai =
      (SubmitResult.attemptNotFound, st) := by
  have hf : st.find? (ownInProgress u aid) = none := by
    rw [List.find?_eq_none]
    intro a ha hpa
    unfold ownInProgress at hpa
    simp only [Bool.and_eq_true, beq_iff_eq, decide_eq_true_eq] at hpa
    rcases h a ha hpa.1.1 with hne | hne
    · exact hne hpa.1.2
    · exact hne hpa.2
  unfold submitAttempt
  rw [hf]

/-- A completed, already scored demo attempt. -/
def completedDemoAttempt : Attempt :=
  { aid := 9
    quizId := 1
    userId := 1
    attemptNumber := 1
    maxPoints := 1
    status := .completed
    answers := []
    score := 100
    passed := true
    sectionScores := []
    aiSummary := none }

/-- C7 witness: submitting again to an already-completed attempt fails and
leaves the stored scored attempt untouched. -/
theorem C7_submit_not_in_progress_witness :
    submitAttempt [completedDemoAttempt] 1 9 demoQuiz demoSubmission none =
      (SubmitResult.attemptNotFound, [completedDemoAttempt]) :=
  C7_submit_not_in_progress [completedDemoAttempt] 1 9 demoQuiz
    demoSubmission none (by decide)

/-! ### Claim C9: AI-feedback isolation -/

/-- C9: if a submission succeeds when the Text Generation Service call
succeeds, then the same submission with the service FAILING still succeeds,
with exactly the same score, passed flag, correct-answer count, question
count, section scores and canRetake flag, a `none` AI summary — and the
scored, completed attempt is still persisted in the store (no rollback). -/
theorem C9_ai_failure_isolated (st : Store) (u aid : Nat) (quiz : Quiz)
    (answers : List SubmittedAnswer) (s : String) (r : SubmitResponse)
    (h : (submitAttempt st u aid quiz answers (some s)).1 =
      SubmitResult.ok r) :
    ∃ rf : SubmitResponse,
      (submitAttempt st u aid quiz answers none).1 = SubmitResult.ok rf ∧
      rf.score = r.score ∧
      rf.passed = r.passed ∧
      rf.correctAnswers = r.correctAnswers ∧
      rf.totalQuestions = r.totalQuestions ∧
      rf.sectionScores = r.sectionScores ∧
      rf.canRetake = r.canRetake ∧
      rf.aiSummary = none ∧
      ∃ att : Attempt, att ∈ (submitAttempt st u aid quiz answers none).2 ∧
        att.aid = aid ∧ att.status = AttemptStatus.completed ∧
        att.score = r.score ∧ att.passed = r.passed := by
  cases hf : st.find? (ownInProgress u aid) with
  | none =>
      exfalso
      unfold submitAttempt at h
      rw [hf] at h
      simp at h
  | some att =>
      cases hp : processAnswers quiz answers with
      | none =>
          exfalso
          unfold submitAttempt at h
          rw [hf] at h
          dsimp only at h
          rw [hp] at h
          simp at h
      | some pas =>
          cases hs : jsScore ((pas.map (fun a => a.points)).sum)
              ((quiz.questions.map (fun qq => qq.points)).sum) with
          | none =>
              exfalso
              unfold submitAttempt at h
              rw [hf] at h
              dsimp only at h
              rw [hp] at h
              dsimp only at h
              rw [hs] at h
              simp at h
          | some score =>
              unfold submitAttempt at h
              rw [hf] at h
              dsimp only at h
              rw [hp] at h
              dsimp only at h
              rw [hs] at h
              dsimp only at h
              injection h with hr
              subst hr
              have haid : att.aid = aid := by
                have hsat := List.find?_some hf
                unfold ownInProgress at hsat
                simp only [Bool.and_eq_true, beq_iff_eq,
                  decide_eq_true_eq] at hsat
                exact hsat.1.1
              have hstore : (submitAttempt st u aid quiz answers none).2 =
                  saveAttempt st
                    { att with
                      status := AttemptStatus.completed
                      answers := pas
                      score := score
                      passed := decide (score ≥ quiz.passingScore)
                      sectionScores := sectionScoresOf pas } := by
                unfold submitAttempt
                rw [hf]
                dsimp only
                rw [hp]
                dsimp only
                rw [hs]
              refine ⟨{
                  passed := decide (score ≥ quiz.passingScore)
                  score := score
                  correctAnswers :=
                    (pas.filter (fun a => a.isCorrect)).length
                  totalQuestions := pas.length
                  sectionScores := sectionScoresOf pas
                  aiSummary := none
                  canRetake := quiz.allowRetakes &&
                    decide (att.attemptNumber < quiz.maxAttempts) },
                ?_, rfl, rfl, rfl, rfl, rfl, rfl, rfl, ?_⟩
              · unfold submitAttempt
                rw [hf]
                dsimp only
                rw [hp]
                dsimp only
                rw [hs]
              · refine ⟨{ att with
                    status := AttemptStatus.completed
                    answers := pas
                    score := score
                    passed := decide (score ≥ quiz.passingScore)
                    sectionScores := sectionScoresOf pas },
                  ?_, haid, rfl, rfl, rfl⟩
                rw [hstore]
                unfold saveAttempt
                refine List.mem_map.mpr ⟨att, List.mem_of_find?_eq_some hf, ?_⟩
                rw [if_pos (beq_iff_eq.mpr rfl)]

/-- The scored response of the demo submission. -/
def demoOkResponse : SubmitResponse :=
  { passed := true
    score := 100
    correctAnswers := 1
    totalQuestions := 1
    sectionScores := [{ sectionTitle := "s1"
                        score := 100
                        totalQuestions := 1
                        correctAnswers := 1 }]
    aiSummary := some "good"
    canRetake := true }

/-- C9 witness: the isolation theorem applied to a concrete successful
submission whose AI call succeeds with summary `good`. -/
theorem C9_ai_failure_isolated_witness :
    ∃ rf : SubmitResponse,
      (submitAttempt [demoAttempt] 1 1 demoQuiz demoSubmission none).1 =
        SubmitResult.ok rf ∧
      rf.score = demoOkResponse.score ∧
      rf.passed = demoOkResponse.passed ∧
      rf.correctAnswers = demoOkResponse.correctAnswers ∧
      rf.totalQuestions = demoOkResponse.totalQuestions ∧
      rf.sectionScores = demoOkResponse.sectionScores ∧
      rf.canRetake = demoOkResponse.canRetake ∧
      rf.aiSummary = none ∧
      ∃ att : Attempt,
        att ∈ (submitAttempt [demoAttempt] 1 1 demoQuiz
          demoSubmission none).2 ∧
        att.aid = 1 ∧ att.status = AttemptStatus.completed ∧
        att.score = demoOkResponse.score ∧
        att.passed = demoOkResponse.passed :=
  C9_ai_failure_isolated [demoAttempt] 1 1 demoQuiz demoSubmission "good"
    demoOkResponse (by decide)

/-! ### Claim C10: community submission scoring -/

/-- Grading reads only the selected answer (and the question list); the
submitted `questionId` is never consulted — rewriting every `questionId`
leaves the scored answers unchanged.  Helper, generalized over the
enumeration start. -/
theorem cScored_enumFrom_questionId (questions : List CQQuestion)
    (f : CQAnswer → String) :
    ∀ (answers : List CQAnswer) (n : Nat),
      ((answers.map (fun a => { a with questionId := f a })).enumFrom n).map
        (fun p => ({ questionIndex := p.1
                     selectedAnswer := p.2.selectedAnswer
                     isCorrect := cGradeAt questions p.1 p.2.selectedAnswer
                     timeSpent := p.2.timeSpent } : CScoredAnswer)) =
      (answers.enumFrom n).map
        (fun p => ({ questionIndex := p.1
                     selectedAnswer := p.2.selectedAnswer
                     isCorrect := cGradeAt questions p.1 p.2.selectedAnswer
                     timeSpent := p.2.timeSpent } : CScoredAnswer)) := by
  intro answers
  induction answers with
  | nil => intro n; rfl
  | cons a as ih =>
      intro n
      show _ :: _ = _ :: _
      rw [ih (n + 1)]

/-- Changing only the `points` of the questions does not change the grade
of any answer (grading compares `correctAnswer` indices). -/
theorem cGradeAt_points_map (questions : List CQQuestion)
    (g : CQQuestion → Nat) (i : Nat) (sel : Option Nat) :
    cGradeAt (questions.map (fun qq => { qq with points := g qq })) i sel =
      cGradeAt questions i sel := by
  unfold cGradeAt
  rw [List.getElem?_map]
  cases questions[i]? <;> rfl

/-- C10: the community submit route grades `answers[i]` against
`questions[i]` (same array position) — the submitted `questionId` is
ignored entirely; answer `i` is correct iff the question at position `i`
exists and its `correctAnswer` strictly equals the submitted
`selectedAnswer`; the attempt score is the plain count of correct answers,
unaffected by the questions' point values; and, when the quiz has at least
one question, `percentage = round(100 × correctAnswers / #questions)` and
the pass decision compares that percentage to the passing threshold. -/
theorem C10_community_scoring (questions : List CQQuestion)
    (answers : List CQAnswer) (passingScore : Nat)
    (hq : questions.length ≠ 0) :
    (∀ f : CQAnswer → String,
      cScoredAnswers questions
        (answers.map (fun a => { a with questionId := f a })) =
      cScoredAnswers questions answers) ∧
    (∀ (i : Nat) (a : CQAnswer), answers[i]? = some a →
      ∃ sa : CScoredAnswer,
        (cScoredAnswers questions answers)[i]? = some sa ∧
        sa.selectedAnswer = a.selectedAnswer ∧
        (sa.isCorrect = true ↔
          ∃ qq, questions[i]? = some qq ∧
            a.selectedAnswer = some qq.correctAnswer)) ∧
    communityScore questions answers =
      ((cScoredAnswers questions answers).filter
        (fun sa => sa.isCorrect)).length ∧
    (∀ g : CQQuestion → Nat,
      communityScore
        (questions.map (fun qq => { qq with points := g qq })) answers =
      communityScore questions answers) ∧
    communityPercentage questions answers =
      some (jsRound (100 * communityScore questions answers)
        questions.length) ∧
    communityPassed questions answers passingScore =
      decide (jsRound (100 * communityScore questions answers)
          questions.length ≥
        (if passingScore = 0 then 70 else passingScore)) := by
  refine ⟨?_, ?_, rfl, ?_, ?_, ?_⟩
  · intro f
    unfold cScoredAnswers
    exact cScored_enumFrom_questionId questions f answers 0
  · intro i a ha
    unfold cScoredAnswers
    refine ⟨{ questionIndex := i
              selectedAnswer := a.selectedAnswer
              isCorrect := cGradeAt questions i a.selectedAnswer
              timeSpent := a.timeSpent }, ?_, rfl, ?_⟩
    · rw [List.getElem?_map, List.getElem?_enum, ha]
      rfl
    · unfold cGradeAt
      cases hqq : questions[i]? with
      | none =>
          simp
      | some qq =>
          simp only [beq_iff_eq, decide_eq_true_eq, Option.some.injEq]
          constructor
          · intro hsel
            exact ⟨qq, rfl, hsel⟩
          · rintro ⟨qq2, hqq2, hsel⟩
            subst hqq2
            exact hsel
  · intro g
    unfold communityScore cCorrectCount cScoredAnswers
    congr 1
    congr 1
    apply List.map_congr_left
    intro p _
    rw [cGradeAt_points_map]
  · unfold communityPercentage
    rw [if_neg hq]
    rfl
  · unfold communityPassed communityPercentage
    rw [if_neg hq]
    rfl

/-- A two-question demo community quiz. -/
def demoCQuestions : List CQQuestion :=
  [{ text := "tq1", options := ["x", "y"], correctAnswer := 0, points := 1 },
   { text := "tq2", options := ["x", "y"], correctAnswer := 1, points := 3 }]

/-- A demo community submission: first answer correct, second wrong. -/
def demoCAnswers : List CQAnswer :=
  [{ questionId := "a", selectedAnswer := some 0, timeSpent := 4 },
   { questionId := "b", selectedAnswer := some 0, timeSpent := 6 }]

/-- C10 witness: the community scoring theorem applied to the demo quiz
and submission. -/
theorem C10_community_scoring_witness :
    (∀ f : CQAnswer → String,
      cScoredAnswers demoCQuestions
        (demoCAnswers.map (fun a => { a with questionId := f a })) =
      cScoredAnswers demoCQuestions demoCAnswers) ∧
    (∀ (i : Nat) (a : CQAnswer), demoCAnswers[i]? = some a →
      ∃ sa : CScoredAnswer,
        (cScoredAnswers demoCQuestions demoCAnswers)[i]? = some sa ∧
        sa.selectedAnswer = a.selectedAnswer ∧
        (sa.isCorrect = true ↔
          ∃ qq, demoCQuestions[i]? = some qq ∧
            a.selectedAnswer = some qq.correctAnswer)) ∧
    communityScore demoCQuestions demoCAnswers =
      ((cScoredAnswers demoCQuestions demoCAnswers).filter
        (fun sa => sa.isCorrect)).length ∧
    (∀ g : CQQuestion → Nat,
      communityScore
        (demoCQuestions.map (fun qq => { qq with points := g qq }))
        demoCAnswers =
      communityScore demoCQuestions demoCAnswers) ∧
    communityPercentage demoCQuestions demoCAnswers =
      some (jsRound (100 * communityScore demoCQuestions demoCAnswers)
        demoCQuestions.length) ∧
    communityPassed demoCQuestions demoCAnswers 60 =
      decide (jsRound (100 * communityScore demoCQuestions demoCAnswers)
          demoCQuestions.length ≥
        (if (60 : Nat) = 0 then 70 else 60)) :=
  C10_community_scoring demoCQuestions demoCAnswers 60 (by decide)

/-! ### Claim C8: leaderboard aggregation — helper lemmas -/

/-- Anything below the seed stays below a running maximum. -/
theorem le_foldl_max (xs : List Nat) : ∀ (b a : Nat), a ≤ b →
    a ≤ xs.foldl max b := by
  induction xs with
  | nil => intro b a h; exact h
  | cons y ys ih =>
      intro b a h
      exact ih (max b y) a (Nat.le_trans h (Nat.le_max_left b y))

/-- Every element of the list is below its running maximum. -/
theorem mem_le_foldl_max (xs : List Nat) : ∀ (b a : Nat), a ∈ xs →
    a ≤ xs.foldl max b := by
  induction xs with
  | nil => intro b a h; cases h
  | cons y ys ih =>
      intro b a h
      rcases List.mem_cons.mp h with rfl | h
      · exact le_foldl_max ys (max b a) a (Nat.le_max_right b a)
      · exact ih (max b y) a h

/-- A running maximum is the seed or an element. -/
theorem foldl_max_cases (xs : List Nat) : ∀ b : Nat,
    xs.foldl max b = b ∨ xs.foldl max b ∈ xs := by
  induction xs with
  | nil => intro b; exact Or.inl rfl
  | cons y ys ih =>
      intro b
      rcases ih (max b y) with h | h
      · rcases max_choice b y with hm | hm
        · exact Or.inl (by rw [List.foldl_cons, h, hm])
        · exact Or.inr (by
            rw [List.foldl_cons, h, hm]
            exact List.mem_cons_self y ys)
      · exact Or.inr (List.mem_cons_of_mem y h)

/-- Anything above the seed stays above a running minimum. -/
theorem foldl_min_le (xs : List Nat) : ∀ (b a : Nat), b ≤ a →
    xs.foldl min b ≤ a := by
  induction xs with
  | nil => intro b a h; exact h
  | cons y ys ih =>
      intro b a h
      exact ih (min b y) a (Nat.le_trans (Nat.min_le_left b y) h)

/-- A running minimum is below every element of the list. -/
theorem foldl_min_le_mem (xs : List Nat) : ∀ (b a : Nat), a ∈ xs →
    xs.foldl min b ≤ a := by
  induction xs with
  | nil => intro b a h; cases h
  | cons y ys ih =>
      intro b a h
      rcases List.mem_cons.mp h with rfl | h
      · exact foldl_min_le ys (min b a) a (Nat.min_le_right b a)
      · exact ih (min b y) a h

/-- A running minimum is the seed or an element. -/
theorem foldl_min_cases (xs : List Nat) : ∀ b : Nat,
    xs.foldl min b = b ∨ xs.foldl min b ∈ xs := by
  induction xs with
  | nil => intro b; exact Or.inl rfl
  | cons y ys ih =>
      intro b
      rcases ih (min b y) with h | h
      · rcases min_choice b y with hm | hm
        · exact Or.inl (by rw [List.foldl_cons, h, hm])
        · exact Or.inr (by
            rw [List.foldl_cons, h, hm]
            exact List.mem_cons_self y ys)
      · exact Or.inr (List.mem_cons_of_mem y h)

/-- `$max` of a nonempty group is one of its values. -/
theorem natsMax_mem (l : List Nat) (hl : l ≠ []) : natsMax l ∈ l := by
  cases l with
  | nil => exact absurd rfl hl
  | cons x xs =>
      unfold natsMax
      dsimp only
      rcases foldl_max_cases xs x with h | h
      · rw [h]; exact List.mem_cons_self x xs
      · exact List.mem_cons_of_mem x h

/-- `$max` bounds every value of its group. -/
theorem le_natsMax (l : List Nat) : ∀ a ∈ l, a ≤ natsMax l := by
  intro a ha
  cases l with
  | nil => cases ha
  | cons x xs =>
      unfold natsMax
      dsimp only
      rcases List.mem_cons.mp ha with rfl | h
      · exact le_foldl_max xs a a (Nat.le_refl a)
      · exact mem_le_foldl_max xs x a h

/-- `$min` of a nonempty group is one of its values. -/
theorem natsMin_mem (l : List Nat) (hl : l ≠ []) : natsMin l ∈ l := by
  cases l with
  | nil => exact absurd rfl hl
  | cons x xs =>
      unfold natsMin
      dsimp only
      rcases foldl_min_cases xs x with h | h
      · rw [h]; exact List.mem_cons_self x xs
      · exact List.mem_cons_of_mem x h

/-- `$min` is below every value of its group. -/
theorem natsMin_le (l : List Nat) : ∀ a ∈ l, natsMin l ≤ a := by
  intro a ha
  cases l with
  | nil => cases ha
  | cons x xs =>
      unfold natsMin
      dsimp only
      rcases List.mem_cons.mp ha with rfl | h
      · exact foldl_min_le xs a a (Nat.le_refl a)
      · exact foldl_min_le_mem xs x a h

/-- Ranked entries come from entries of the input list. -/
theorem mem_assignRanks : ∀ (l : List LBEntry) (i : Nat) (y : RankedEntry),
    y ∈ assignRanks i l → ∃ x ∈ l, ∃ j : Nat, y = withRank x j := by
  intro l
  induction l with
  | nil => intro i y hy; cases hy
  | cons e es ih =>
      intro i y hy
      unfold assignRanks at hy
      rcases List.mem_cons.mp hy with h | h
      · exact ⟨e, List.mem_cons_self e es, i, h⟩
      · obtain ⟨x, hx, j, hj⟩ := ih (i + 1) y h
        exact ⟨x, List.mem_cons_of_mem e hx, j, hj⟩

/-- Ranking preserves length. -/
theorem assignRanks_length : ∀ (l : List LBEntry) (i : Nat),
    (assignRanks i l).length = l.length := by
  intro l
  induction l with
  | nil => intro i; rfl
  | cons e es ih =>
      intro i
      unfold assignRanks
      rw [List.length_cons, List.length_cons, ih (i + 1)]

/-- The ranks are consecutive from the starting index. -/
theorem assignRanks_ranks : ∀ (l : List LBEntry) (i : Nat),
    (assignRanks i l).map (fun e => e.rank) = List.range' i l.length := by
  intro l
  induction l with
  | nil => intro i; rfl
  | cons e es ih =>
      intro i
      unfold assignRanks
      rw [List.map_cons, ih (i + 1), List.length_cons, List.range'_succ]
      rfl

/-- The rank at position `k` is `i + k`. -/
theorem assignRanks_rank_at : ∀ (l : List LBEntry) (i k : Nat)
    (hk : k < (assignRanks i l).length),
    ((assignRanks i l).get ⟨k, hk⟩).rank = i + k := by
  intro l
  induction l with
  | nil =>
      intro i k hk
      rw [assignRanks_length] at hk
      exact absurd hk (Nat.not_lt_zero k)
  | cons e es ih =>
      intro i k hk
      cases k with
      | zero => rfl
      | succ k2 =>
          have hk2 : k2 < (assignRanks (i + 1) es).length := by
            rw [assignRanks_length] at hk ⊢
            rw [List.length_cons] at hk
            omega
          have hstep := ih (i + 1) k2 hk2
          have hget : ((assignRanks i (e :: es)).get ⟨k2 + 1, hk⟩) =
              ((assignRanks (i + 1) es).get ⟨k2, hk2⟩) := rfl
          rw [hget, hstep]
          omega

/-- Ranking preserves the sortedness relation on scores and times. -/
theorem pairwise_assignRanks : ∀ (l : List LBEntry) (i : Nat),
    l.Pairwise lbOrder →
    (assignRanks i l).Pairwise (fun a b =>
      b.score < a.score ∨ (a.score = b.score ∧ a.timeTaken ≤ b.timeTaken)) := by
  intro l
  induction l with
  | nil => intro i _; exact List.Pairwise.nil
  | cons e es ih =>
      intro i hp
      rw [List.pairwise_cons] at hp
      unfold assignRanks
      rw [List.pairwise_cons]
      refine ⟨?_, ih (i + 1) hp.2⟩
      intro y hy
      obtain ⟨x, hx, j, rfl⟩ := mem_assignRanks es (i + 1) y hy
      exact hp.1 x hx

/-! ### Claim C8 -/

/-- C8: the leaderboard returns at most 50 entries; ranks are exactly the
1-based positions 1..n; entries are ordered by score descending then best
time ascending; among two entries with equal score the one with the
strictly smaller best time has the strictly smaller (better) rank; and
every entry carries, for its user, the maximum score and the minimum
total time over that user's attempts for the quiz. -/
theorem C8_leaderboard (st : CStore) :
    (computeLeaderboard st).length ≤ 50 ∧
    (computeLeaderboard st).map (fun e => e.rank) =
      List.range' 1 (computeLeaderboard st).length ∧
    (computeLeaderboard st).Pairwise (fun a b =>
      b.score < a.score ∨ (a.score = b.score ∧ a.timeTaken ≤ b.timeTaken)) ∧
    (∀ (i j : Nat) (hi : i < (computeLeaderboard st).length)
        (hj : j < (computeLeaderboard st).length),
      ((computeLeaderboard st).get ⟨i, hi⟩).score =
        ((computeLeaderboard st).get ⟨j, hj⟩).score →
      ((computeLeaderboard st).get ⟨i, hi⟩).timeTaken <
        ((computeLeaderboard st).get ⟨j, hj⟩).timeTaken →
      ((computeLeaderboard st).get ⟨i, hi⟩).rank <
        ((computeLeaderboard st).get ⟨j, hj⟩).rank) ∧
    (∀ e ∈ computeLeaderboard st,
      e.score ∈ (cAttemptsOf st e.userId).map (fun a => a.score) ∧
      (∀ s ∈ (cAttemptsOf st e.userId).map (fun a => a.score),
        s ≤ e.score) ∧
      e.timeTaken ∈
        (cAttemptsOf st e.userId).map (fun a => a.totalTimeTaken) ∧
      (∀ t ∈ (cAttemptsOf st e.userId).map (fun a => a.totalTimeTaken),
        e.timeTaken ≤ t)) := by
  have hsorted : ((List.insertionSort lbOrder (groupByUser st)).take 50).Pairwise
      lbOrder :=
    (List.sorted_insertionSort lbOrder (groupByUser st)).sublist
      (List.take_sublist 50 (List.insertionSort lbOrder (groupByUser st)))
  refine ⟨?_, ?_, ?_, ?_, ?_⟩
  · unfold computeLeaderboard
    rw [assignRanks_length]
    exact List.length_take_le 50 _
  · unfold computeLeaderboard
    rw [assignRanks_ranks, assignRanks_length]
  · unfold computeLeaderboard
    exact pairwise_assignRanks _ 1 hsorted
  · intro i j hi hj hscore htime
    have hpw : (computeLeaderboard st).Pairwise (fun a b =>
        b.score < a.score ∨
          (a.score = b.score ∧ a.timeTaken ≤ b.timeTaken)) := by
      unfold computeLeaderboard
      exact pairwise_assignRanks _ 1 hsorted
    have hranki : ((computeLeaderboard st).get ⟨i, hi⟩).rank = 1 + i := by
      unfold computeLeaderboard at hi ⊢
      exact assignRanks_rank_at _ 1 i hi
    have hrankj : ((computeLeaderboard st).get ⟨j, hj⟩).rank = 1 + j := by
      unfold computeLeaderboard at hj ⊢
      exact assignRanks_rank_at _ 1 j hj
    rw [hranki, hrankj]
    rcases Nat.lt_trichotomy i j with hij | hij | hij
    · omega
    · exfalso
      subst hij
      have : ((computeLeaderboard st).get ⟨i, hi⟩).timeTaken =
          ((computeLeaderboard st).get ⟨i, hj⟩).timeTaken := rfl
      omega
    · exfalso
      have hrel := List.pairwise_iff_get.mp hpw ⟨j, hj⟩ ⟨i, hi⟩ hij
      rcases hrel with hlt | ⟨heq, hle⟩
      · omega
      · omega
  · intro e he
    unfold computeLeaderboard at he
    obtain ⟨x, hx, j, rfl⟩ := mem_assignRanks _ 1 e he
    have hx2 : x ∈ List.insertionSort lbOrder (groupByUser st) :=
      List.mem_of_mem_take hx
    have hx3 : x ∈ groupByUser st :=
      (List.perm_insertionSort lbOrder (groupByUser st)).subset hx2
    unfold groupByUser at hx3
    obtain ⟨u, hu, rfl⟩ := List.mem_map.mp hx3
    have hu2 : u ∈ st.map (fun a => a.userId) := List.mem_dedup.mp hu
    obtain ⟨a0, ha0, rfl⟩ := List.mem_map.mp hu2
    have hbucket : a0 ∈ cAttemptsOf st a0.userId := by
      unfold cAttemptsOf
      exact List.mem_filter.mpr ⟨ha0, by simp⟩
    have hscores : a0.score ∈ (cAttemptsOf st a0.userId).map
        (fun a => a.score) :=
      List.mem_map.mpr ⟨a0, hbucket, rfl⟩
    have htimes : a0.totalTimeTaken ∈ (cAttemptsOf st a0.userId).map
        (fun a => a.totalTimeTaken) :=
      List.mem_map.mpr ⟨a0, hbucket, rfl⟩
    have hne1 : (cAttemptsOf st a0.userId).map (fun a => a.score) ≠ [] :=
      List.ne_nil_of_mem hscores
    have hne2 : (cAttemptsOf st a0.userId).map
        (fun a => a.totalTimeTaken) ≠ [] :=
      List.ne_nil_of_mem htimes
    exact ⟨natsMax_mem _ hne1, le_natsMax _,
      natsMin_mem _ hne2, natsMin_le _⟩

/-- Attempts for the leaderboard witness: two users with equal best score
and best times 120 and 90. -/
def demoLBAttempts : CStore :=
  [{ aid := 1, userId := 1, quizId := 1, attemptNumber := 1,
     status := .completed, score := 8, totalTimeTaken := 120,
     createdAt := 10 },
   { aid := 2, userId := 2, quizId := 1, attemptNumber := 1,
     status := .completed, score := 8, totalTimeTaken := 90,
     createdAt := 11 },
   { aid := 3, userId := 1, quizId := 1, attemptNumber := 2,
     status := .completed, score := 5, totalTimeTaken := 60,
     createdAt := 12 }]

/-- C8 witness: the leaderboard theorem applied to a concrete attempt set
with a score tie broken by time. -/
theorem C8_leaderboard_witness :
    (computeLeaderboard demoLBAttempts).length ≤ 50 ∧
    (computeLeaderboard demoLBAttempts).map (fun e => e.rank) =
      List.range' 1 (computeLeaderboard demoLBAttempts).length ∧
    (computeLeaderboard demoLBAttempts).Pairwise (fun a b =>
      b.score < a.score ∨ (a.score = b.score ∧ a.timeTaken ≤ b.timeTaken)) ∧
    (∀ (i j : Nat) (hi : i < (computeLeaderboard demoLBAttempts).length)
        (hj : j < (computeLeaderboard demoLBAttempts).length),
      ((computeLeaderboard demoLBAttempts).get ⟨i, hi⟩).score =
        ((computeLeaderboard demoLBAttempts).get ⟨j, hj⟩).score →
      ((computeLeaderboard demoLBAttempts).get ⟨i, hi⟩).timeTaken <
        ((computeLeaderboard demoLBAttempts).get ⟨j, hj⟩).timeTaken →
      ((computeLeaderboard demoLBAttempts).get ⟨i, hi⟩).rank <
        ((computeLeaderboard demoLBAttempts).get ⟨j, hj⟩).rank) ∧
    (∀ e ∈ computeLeaderboard demoLBAttempts,
      e.score ∈ (cAttemptsOf demoLBAttempts e.userId).map
        (fun a => a.score) ∧
      (∀ s ∈ (cAttemptsOf demoLBAttempts e.userId).map (fun a => a.score),
        s ≤ e.score) ∧
      e.timeTaken ∈ (cAttemptsOf demoLBAttempts e.userId).map
        (fun a => a.totalTimeTaken) ∧
      (∀ t ∈ (cAttemptsOf demoLBAttempts e.userId).map
          (fun a => a.totalTimeTaken),
        e.timeTaken ≤ t)) :=
  C8_leaderboard demoLBAttempts

end EII
